import Mathlib

/-!
Shallow embedding of the log-expectation matching engine of
`src/bin/varnishtest/vtc_logexp.c` (varnish-cache, varnishtest `logexpect`).

The embedding follows the C source function by function:
  * `LogexpTest`              — `struct logexp_test` (one compiled expect Pattern);
    the diagnostic string `str` is omitted (purely observational).
  * `LEStateR`                — the mutable match state of `struct logexp`
    (`test` pointer, `skip_cnt`, `vxid_last`, `tag_last`); the `test` pointer
    into the VTAILQ is represented as an optional index into the Pattern list.
  * `VSLRec`                  — one VSL record as seen by `logexp_dispatch`
    (`VSL_ID`, `VSL_TAG`, `VSL_CDATA`, `VSL_LEN`, and whether it passes the
    external `VSL_Match` side/tag/query selector).
  * `logexp_ok`               — the ok-computation of `logexp_dispatch`
    (vxid check, tag check, scoped regex check).
  * `logexp_step`             — classification + state update for one record
    (the ok/skip/fail policy of `logexp_dispatch`).
  * `logexp_dispatch_recs`    — the inner `while (VSL_Next)` loop over the
    records of the transactions of one dispatch call, flattened.
  * `logexp_dispatch`         — one `logexp_dispatch` callback invocation over
    a batch of transactions (the outer `for` loop over `pt[]`).
  * `logexp_run_loop` / `logexp_thread` — the `logexp_thread` dispatch loop,
    over a finite list of batches delivered by `VSLQ_Dispatch`.
  * `logexp_trace` / `logexp_run_trace` — the classification events produced
    along the way (for stating trace properties).
  * `strtol10`, `parse_skip`, `parse_vxid`, `parse_tag`, `cmd_logexp_expect`
    — the expectation-line compiler `cmd_logexp_expect`; the external tag
    registry (`VSL_Name2Tag`) and regex compiler (`VRE_compile`) are
    collaborator parameters.
  * `cmd_arg_apply` / `cmd_logexpect_args` — the argument loop of
    `cmd_logexpect` with its implicit-wait rule, instrumented with an event
    trace; the background thread is abstracted into the `run` flag exactly as
    the claim under verification phrases it.

External collaborators (VSL cursor internals, regex engine execution, the
vtc harness logging sink) are parameters or record fields, never stubs of
in-scope logic.
-/

namespace VtcLogexp

/-- `LE_ANY` from vtc_logexp.c: `#define LE_ANY (-1)`. -/
def LE_ANY : Int := -1

/-- `LE_LAST` from vtc_logexp.c: `#define LE_LAST (-2)`. -/
def LE_LAST : Int := -2

/-- `SLT__Batch` from vapi/vsl_int.h (the batch delimiter pseudo-record tag). -/
def SLT_Batch : Int := 255

/-- `struct logexp_test`: one compiled expect Pattern.  `vre` is the compiled
regex of the external engine, modelled as its matching predicate on the byte
sequence handed to `VRE_exec`.  The rendered description `str` is omitted
(diagnostic only). -/
structure LogexpTest where
  vxid : Int
  tag : Int
  vre : Option (List Char → Bool)
  skip_max : Int

/-- One VSL record as consumed by `logexp_dispatch`: whether it passes the
external `VSL_Match` selector, `VSL_ID`, `VSL_TAG`, the payload bytes
(`VSL_CDATA`) and the declared payload length (`VSL_LEN`). -/
structure VSLRec where
  vslMatch : Bool
  vxid : Int
  tag : Int
  data : List Char
  len : Int
deriving DecidableEq

/-- The mutable match state of `struct logexp`: the `test` pointer (as an
optional index into the Pattern list), `skip_cnt`, `vxid_last`, `tag_last`. -/
structure LEStateR where
  test : Option Nat
  skip_cnt : Int
  vxid_last : Int
  tag_last : Int
deriving DecidableEq

/-- Classification of one record against the active Pattern (the
`match` / silent-skip / `err` legend of `logexp_dispatch`). -/
inductive Classification where
  | MATCH
  | SKIP
  | FAIL
deriving DecidableEq

/-- One classification event: the index of the Pattern it was classified
against and the classification. -/
structure LEEvent where
  idx : Nat
  cls : Classification
deriving DecidableEq

/-- Outcome of a whole background run (`logexp_thread`): the thread exits
successfully, fails via `vtc_fatal`, is still waiting for more log data when
the modelled stream ends, or hit the `CHECK_OBJ_NOTNULL(le->test)` assertion
(proved unreachable). -/
inductive RunOutcome where
  | success
  | failure
  | stillOpen
  | aborted
deriving DecidableEq

/-- The byte sequence handed to `VRE_exec(vre, data, len, ...)`: the first
`len` payload bytes (a negative `len` yields the empty sequence). -/
def vre_input (data : List Char) (len : Int) : List Char :=
  data.take len.toNat

/-- The `ok` computation of `logexp_dispatch` (vtc_logexp.c lines 267-287):
vxid check (ANY / LAST / exact), tag check (ANY / LAST / exact), and the
regex check scoped to an exact tag equal to the record's tag.  `len` is
`VSL_LEN(t->c->rec.ptr) - 1` as in the C source (line 262). -/
def logexp_ok (le : LEStateR) (t : LogexpTest) (r : VSLRec) : Bool :=
  let vxid := r.vxid
  let tag := r.tag
  let len := r.len - 1
  let ok := true
  let ok :=
    if t.vxid = LE_LAST then
      (if le.vxid_last ≠ vxid then false else ok)
    else if 0 ≤ t.vxid then
      (if t.vxid ≠ vxid then false else ok)
    else ok
  let ok :=
    if t.tag = LE_LAST then
      (if le.tag_last ≠ tag then false else ok)
    else if 0 ≤ t.tag then
      (if t.tag ≠ tag then false else ok)
    else ok
  let ok :=
    match t.vre with
    | some m =>
        if 0 ≤ t.tag ∧ t.tag = tag ∧ m (vre_input r.data len) = false then false
        else ok
    | none => ok
  ok

/-- `logexp_next`: advance the `test` pointer to the first Pattern when it is
none, otherwise to the following Pattern (or none past the last one). -/
def logexp_next (tests : List LogexpTest) (le : LEStateR) : LEStateR :=
  { le with
    test :=
      match le.test with
      | some i => if i + 1 < tests.length then some (i + 1) else none
      | none => if tests.length = 0 then none else some 0 }

/-- One record classified against the active Pattern `t`, with the state
effects of `logexp_dispatch` (lines 289-321): on ok record `vxid_last`,
`tag_last`, clear `skip_cnt` and advance; on a skip within budget increment
`skip_cnt`; otherwise fail with the state untouched. -/
def logexp_step (tests : List LogexpTest) (le : LEStateR) (t : LogexpTest)
    (r : VSLRec) : Classification × LEStateR :=
  if logexp_ok le t r then
    (.MATCH,
     logexp_next tests
       { le with vxid_last := r.vxid, tag_last := r.tag, skip_cnt := 0 })
  else if t.skip_max = LE_ANY ∨ le.skip_cnt < t.skip_max then
    (.SKIP, { le with skip_cnt := le.skip_cnt + 1 })
  else
    (.FAIL, le)

/-- The record loop of one `logexp_dispatch` call over a flattened record
sequence: return code 0 when the records are exhausted, 1 as soon as the
Pattern list is exhausted by a match, 2 on a failed classification; 3 models
the `CHECK_OBJ_NOTNULL(le->test)` assertion firing (unreachable in a run).
Records failing `VSL_Match` and `SLT__Batch` pseudo-records are passed over
(`continue`). -/
def logexp_dispatch_recs (tests : List LogexpTest) :
    LEStateR → List VSLRec → Int × LEStateR
  | le, [] => (0, le)
  | le, r :: rs =>
    if r.vslMatch = false then logexp_dispatch_recs tests le rs
    else
      match le.test with
      | none => (3, le)
      | some i =>
        match tests[i]? with
        | none => (3, le)
        | some t =>
          if r.tag = SLT_Batch then logexp_dispatch_recs tests le rs
          else
            match logexp_step tests le t r with
            | (.MATCH, le') =>
                if le'.test = none then (1, le')
                else logexp_dispatch_recs tests le' rs
            | (.SKIP, le') => logexp_dispatch_recs tests le' rs
            | (.FAIL, le') => (2, le')

/-- The classification events emitted by `logexp_dispatch_recs` on the same
inputs (same control flow, collecting one event per classified record). -/
def logexp_trace (tests : List LogexpTest) :
    LEStateR → List VSLRec → List LEEvent
  | _, [] => []
  | le, r :: rs =>
    if r.vslMatch = false then logexp_trace tests le rs
    else
      match le.test with
      | none => []
      | some i =>
        match tests[i]? with
        | none => []
        | some t =>
          if r.tag = SLT_Batch then logexp_trace tests le rs
          else
            match logexp_step tests le t r with
            | (.MATCH, le') =>
                ⟨i, .MATCH⟩ ::
                  (if le'.test = none then [] else logexp_trace tests le' rs)
            | (.SKIP, le') => ⟨i, .SKIP⟩ :: logexp_trace tests le' rs
            | (.FAIL, _) => [⟨i, .FAIL⟩]

/-- One `logexp_dispatch` callback invocation: the outer loop over the
transactions `pt[]` of the batch, each transaction iterated record by record
by the inner loop. -/
def logexp_dispatch (tests : List LogexpTest) :
    LEStateR → List (List VSLRec) → Int × LEStateR
  | le, [] => (0, le)
  | le, tx :: txs =>
    match logexp_dispatch_recs tests le tx with
    | (i, le') => if i = 0 then logexp_dispatch tests le' txs else (i, le')

/-- The dispatch loop of `logexp_thread` over a finite list of batches
delivered by `VSLQ_Dispatch`: loop while the `test` pointer is non-null,
failing on return code 2 (`vtc_fatal "bad| expectation failed"`); when the
modelled stream of batches runs out with the run still in progress the
outcome is `stillOpen` (the real thread would keep polling). -/
def logexp_run_loop (tests : List LogexpTest) :
    LEStateR → List (List (List VSLRec)) → RunOutcome
  | le, [] => if le.test = none then .success else .stillOpen
  | le, b :: bs =>
    if le.test = none then .success
    else
      match logexp_dispatch tests le b with
      | (i, le') =>
        if i = 2 then .failure
        else if i = 3 then .aborted
        else logexp_run_loop tests le' bs

/-- The match state installed by `logexp_start` (vtc_logexp.c lines 398-400):
`test = NULL`, `skip_cnt = 0`, `vxid_last = tag_last = -1`. -/
def logexp_init : LEStateR :=
  { test := none, skip_cnt := 0, vxid_last := -1, tag_last := -1 }

/-- `logexp_thread`: start from the state installed by `logexp_start`,
perform the initial `logexp_next`, then run the dispatch loop. -/
def logexp_thread (tests : List LogexpTest)
    (batches : List (List (List VSLRec))) : RunOutcome :=
  logexp_run_loop tests (logexp_next tests logexp_init) batches

/-- The classification events of a whole run, batch by batch, stopping where
the thread stops. -/
def logexp_run_trace (tests : List LogexpTest) :
    LEStateR → List (List (List VSLRec)) → List LEEvent
  | _, [] => []
  | le, b :: bs =>
    if le.test = none then []
    else
      match logexp_dispatch tests le b with
      | (i, le') =>
        let tr := logexp_trace tests le b.flatten
        if i = 2 ∨ i = 3 then tr
        else tr ++ logexp_run_trace tests le' bs

/-- The classification events of a whole `logexp_thread` run. -/
def logexp_thread_trace (tests : List LogexpTest)
    (batches : List (List (List VSLRec))) : List LEEvent :=
  logexp_run_trace tests (logexp_next tests logexp_init) batches

/-- Number of MATCH classifications in a trace. -/
def countMatch : List LEEvent → Nat
  | [] => 0
  | e :: tr => (if e.cls = .MATCH then 1 else 0) + countMatch tr

/-- Classification of the last event of a trace, if any. -/
def lastCls : List LEEvent → Option Classification
  | [] => none
  | [e] => some e.cls
  | _ :: e :: tr => lastCls (e :: tr)

/-- Every classified record of the trace is MATCH or SKIP (no FAIL). -/
def noFail (tr : List LEEvent) : Prop :=
  ∀ e ∈ tr, e.cls = Classification.MATCH ∨ e.cls = Classification.SKIP

instance (tr : List LEEvent) : Decidable (noFail tr) := by
  unfold noFail; infer_instance

/-- C `isspace` for the `strtol` model. -/
def isSpaceC (c : Char) : Bool :=
  c = ' ' ∨ c = '\t' ∨ c = '\n' ∨ c = '\x0b' ∨ c = '\x0c' ∨ c = '\r'

/-- Clamping of an out-of-range value to the C `long` range (LP64, 64-bit),
as `strtol` does on overflow. -/
def long_clamp (v : Int) : Int :=
  if v < -(2 ^ 63) then -(2 ^ 63)
  else if v > 2 ^ 63 - 1 then 2 ^ 63 - 1
  else v

/-- Truncating conversion to the C `int` range (32-bit two's complement),
the effect of the `(int)` casts in `cmd_logexp_expect` and of `atoi`. -/
def int_cast (v : Int) : Int :=
  (v + 2 ^ 31) % 2 ^ 32 - 2 ^ 31

/-- `strtol(s, &end, 10)`: skip leading whitespace, optional sign, then
digits; returns the value together with the unconsumed remainder (`*end`).
When no digits are consumed the value is 0 and the remainder is the whole
input; on overflow the value is clamped to the `long` range, both as for C
`strtol`. -/
def strtol10 (s : List Char) : Int × List Char :=
  let t := s.dropWhile isSpaceC
  let (neg, t2) :=
    match t with
    | '-' :: r => (true, r)
    | '+' :: r => (false, r)
    | _ => (false, t)
  let ds := t2.takeWhile Char.isDigit
  let rest := t2.dropWhile Char.isDigit
  if ds = [] then (0, s)
  else
    let v : Int := ds.foldl (fun a c => a * 10 + ((c.toNat : Int) - 48)) 0
    (long_clamp (if neg then -v else v), rest)

/-- The skip token of `cmd_logexp_expect`: `"*"` is `LE_ANY`, otherwise
`skip_max = (int)strtol(av[1], &end, 10)` must consume the whole token and
the truncated value must be non-negative. -/
def parse_skip (s : String) : Except String Int :=
  if s = "*" then .ok LE_ANY
  else
    match strtol10 s.data with
    | (v, rest) =>
      let vi := int_cast v
      if rest ≠ [] ∨ vi < 0 then .error ("Not a positive integer: " ++ s)
      else .ok vi

/-- The vxid token of `cmd_logexp_expect`: `"*"` is `LE_ANY`, `"="` is
`LE_LAST`, otherwise `vxid = (int)strtol(av[2], &end, 10)` must consume the
whole token and the truncated value must be non-negative. -/
def parse_vxid (s : String) : Except String Int :=
  if s = "*" then .ok LE_ANY
  else if s = "=" then .ok LE_LAST
  else
    match strtol10 s.data with
    | (v, rest) =>
      let vi := int_cast v
      if rest ≠ [] ∨ vi < 0 then .error ("Not a positive integer: " ++ s)
      else .ok vi

/-- The tag token of `cmd_logexp_expect`: `"*"` is `LE_ANY`, `"="` is
`LE_LAST`, otherwise resolved through the external `VSL_Name2Tag` registry
(`name2tag`, a collaborator parameter; negative means unknown). -/
def parse_tag (name2tag : String → Int) (s : String) : Except String Int :=
  if s = "*" then .ok LE_ANY
  else if s = "=" then .ok LE_LAST
  else
    if name2tag s < 0 then .error ("Unknown tag name: " ++ s)
    else .ok (name2tag s)

/-- The diagnostic of a failed `VRE_compile`, carrying the engine message and
the byte offset, as in `vtc_fatal(vl, "Regex error (%s): ... pos %d")`. -/
def vre_err_msg (err : String) (pat : String) (pos : Int) : String :=
  "Regex error (" ++ err ++ "): " ++ pat ++ " pos " ++ toString pos

/-- `cmd_logexp_expect`: compile one expectation line.  `av` is the argument
vector with `av[0] = "expect"`; `av[i]? = none` models a NULL entry.  The
external collaborators are parameters: `name2tag` is `VSL_Name2Tag`,
`vre_compile` is `VRE_compile` (returning the matcher of the compiled regex,
or the engine message and error offset). -/
def cmd_logexp_expect (name2tag : String → Int)
    (vre_compile : String → Except (String × Int) (List Char → Bool))
    (av : List String) : Except String LogexpTest :=
  match av[1]?, av[2]?, av[3]? with
  | some a1, some a2, some a3 =>
    if (av[4]?).isSome ∧ (av[5]?).isSome then .error "Syntax error"
    else
      match parse_skip a1 with
      | .error e => .error e
      | .ok sm =>
        match parse_vxid a2 with
        | .error e => .error e
        | .ok vx =>
          match parse_tag name2tag a3 with
          | .error e => .error e
          | .ok tg =>
            match av[4]? with
            | none => .ok { vxid := vx, tag := tg, vre := none, skip_max := sm }
            | some a4 =>
              match vre_compile a4 with
              | .error (err, pos) => .error (vre_err_msg err a4 pos)
              | .ok m => .ok { vxid := vx, tag := tg, vre := some m, skip_max := sm }
  | _, _, _ => .error "Syntax error"

/-- The effect of one `expect` line on the Engine's Pattern list:
`VTAILQ_INSERT_TAIL` on success, no append when `vtc_fatal` fired. -/
def cmd_logexp_expect_app (name2tag : String → Int)
    (vre_compile : String → Except (String × Int) (List Char → Bool))
    (tests : List LogexpTest) (av : List String) : List LogexpTest :=
  match cmd_logexp_expect name2tag vre_compile av with
  | .ok t => tests ++ [t]
  | .error _ => tests

/-- External collaborators of the `cmd_logexpect` argument loop:
`VSLQ_Name2Grouping`, `VSL_Arg`, `macro_expand`, the Pattern list produced by
compiling a spec block (`logexp_spec` / `parse_string`), and whether a joined
thread had failed (`res != NULL && !vtc_stop` in `logexp_wait`). -/
structure CmdEnv where
  n2g : String → Int
  vslArgOk : String → String → Bool
  macroExp : String → Option String
  specTests : String → List LogexpTest
  threadFailed : Bool

/-- Events of the `cmd_logexpect` argument loop: a `pthread_join` via
`logexp_wait`, an argument handler mutating the Engine with the `run` flag it
saw, a `logexp_start`, a `vtc_fatal`. -/
inductive CmdEv where
  | waited
  | applied (arg : String) (running : Bool)
  | started
  | fatalEv (msg : String)
deriving DecidableEq

/-- The configuration state of `struct logexp` handled by `cmd_logexpect`:
the running flag, `-d`/`-g`/`-q` arguments, the `-v` source name, the Pattern
list and the accumulated generic VSL arguments. -/
structure LogexpCfg where
  run : Bool
  d_arg : Int
  g_arg : Int
  query : Option String
  n_arg : Option String
  tests : List LogexpTest
  vslArgs : List (String × String)

/-- One argument handler of `cmd_logexpect` (everything except `-wait` and
the implicit wait, which the driver performs first).  `nextArg` is `av[1]`.
Returns the new state, the emitted events, whether processing stops
(`vtc_fatal` or the `-v` macro-expansion early return), and whether the
handler consumed the following token as well. -/
def cmd_arg_apply (env : CmdEnv) (st : LogexpCfg) (a : String)
    (nextArg : Option String) : LogexpCfg × List CmdEv × Bool × Bool :=
  if a = "-v" then
    match nextArg with
    | none => (st, [.fatalEv "Missing -v argument"], true, false)
    | some v =>
      match env.macroExp ("${tmpdir}/" ++ v) with
      | none => ({ st with n_arg := none }, [.applied "-v" st.run], true, true)
      | some nv => ({ st with n_arg := some nv }, [.applied "-v" st.run], false, true)
  else if a = "-d" then
    match nextArg with
    | none => (st, [.fatalEv "Missing -d argument"], true, false)
    | some d =>
      ({ st with d_arg := int_cast (strtol10 d.data).1 },
       [.applied "-d" st.run], false, true)
  else if a = "-g" then
    match nextArg with
    | none => (st, [.fatalEv "Missing -g argument"], true, false)
    | some g =>
      let st2 := { st with g_arg := env.n2g g }
      if st2.g_arg < 0 then
        (st2, [.applied "-g" st.run, .fatalEv "Unknown grouping"], true, true)
      else (st2, [.applied "-g" st.run], false, true)
  else if a = "-q" then
    match nextArg with
    | none => (st, [.fatalEv "Missing -q argument"], true, false)
    | some q => ({ st with query := some q }, [.applied "-q" st.run], false, true)
  else if a = "-start" then
    if st.n_arg = none then (st, [.fatalEv "-v argument not given"], true, false)
    else ({ st with run := true }, [.applied "-start" st.run, .started], false, false)
  else if a = "-run" then
    if st.n_arg = none then (st, [.fatalEv "-v argument not given"], true, false)
    else if env.threadFailed then
      ({ st with run := true },
       [.applied "-run" st.run, .started, .waited, .fatalEv "logexp returned"],
       true, false)
    else
      ({ st with run := false }, [.applied "-run" st.run, .started, .waited],
       false, false)
  else if a.startsWith "-" then
    match nextArg with
    | none => (st, [.fatalEv ("Unknown logexp argument: " ++ a)], true, false)
    | some v =>
      if env.vslArgOk a v then
        ({ st with vslArgs := st.vslArgs ++ [(a, v)] }, [.applied a st.run],
         false, true)
      else (st, [.fatalEv "VSL_Arg error"], true, false)
  else
    ({ st with tests := env.specTests a }, [.applied a st.run], false, false)

/-- The argument loop of `cmd_logexpect` (vtc_logexp.c lines 539-618):
`-wait` joins the thread; every other argument first performs the implicit
wait when the Engine is running, then runs its handler.  The external
`vtc_error` early break is omitted (it only truncates processing).  A failed
join (`vtc_fatal` in `logexp_wait`) stops processing before any handler
runs. -/
def cmd_logexpect_args (env : CmdEnv) :
    LogexpCfg → List String → LogexpCfg × List CmdEv
  | st, [] => (st, [])
  | st, a :: rest =>
    if a = "-wait" then
      if st.run = false then (st, [.fatalEv "logexp not -started"])
      else if env.threadFailed then (st, [.waited, .fatalEv "logexp returned"])
      else
        match cmd_logexpect_args env { st with run := false } rest with
        | (st3, evs3) => (st3, .waited :: evs3)
    else if st.run = true ∧ env.threadFailed = true then
      (st, [.waited, .fatalEv "logexp returned"])
    else
      let st1 := if st.run then { st with run := false } else st
      let evs1 : List CmdEv := if st.run then [.waited] else []
      match cmd_arg_apply env st1 a rest.head? with
      | (st2, evs2, halt, two) =>
        if halt then (st2, evs1 ++ evs2)
        else if two then
          match rest with
          | [] => (st2, evs1 ++ evs2)
          | _ :: rest2 =>
            match cmd_logexpect_args env st2 rest2 with
            | (st3, evs3) => (st3, evs1 ++ evs2 ++ evs3)
        else
          match cmd_logexpect_args env st2 rest with
          | (st3, evs3) => (st3, evs1 ++ evs2 ++ evs3)

/-- The vxid check of `logexp_ok` in isolation. -/
def vxid_ok (le : LEStateR) (t : LogexpTest) (r : VSLRec) : Bool :=
  if t.vxid = LE_LAST then decide (le.vxid_last = r.vxid)
  else if 0 ≤ t.vxid then decide (t.vxid = r.vxid)
  else true

/-- The tag check of `logexp_ok` in isolation. -/
def tag_ok (le : LEStateR) (t : LogexpTest) (r : VSLRec) : Bool :=
  if t.tag = LE_LAST then decide (le.tag_last = r.tag)
  else if 0 ≤ t.tag then decide (t.tag = r.tag)
  else true

/-- The scoped regex check of `logexp_ok` in isolation. -/
def vre_ok (t : LogexpTest) (r : VSLRec) : Bool :=
  match t.vre with
  | some m =>
      if 0 ≤ t.tag ∧ t.tag = r.tag then m (vre_input r.data (r.len - 1))
      else true
  | none => true

/-- Sample Pattern with exact vxid 0, exact tag 0, no regex, skip budget 2. -/
def sample_t : LogexpTest := { vxid := 0, tag := 0, vre := none, skip_max := 2 }

/-- Sample match state: first Pattern active, fresh counters. -/
def sample_le : LEStateR :=
  { test := some 0, skip_cnt := 0, vxid_last := -1, tag_last := -1 }

/-- Sample record matching `sample_t`. -/
def sample_hit : VSLRec :=
  { vslMatch := true, vxid := 0, tag := 0, data := [], len := 1 }

/-- Sample record failing `sample_t`'s vxid check. -/
def sample_miss : VSLRec :=
  { vslMatch := true, vxid := 5, tag := 0, data := [], len := 1 }

/-- Sample record with a two-byte declared payload. -/
def sample_rx : VSLRec :=
  { vslMatch := true, vxid := 0, tag := 0, data := ['a', 'b'], len := 2 }

/-- Sample Pattern back-referencing the last matched vxid, any tag, no skip
budget. -/
def sample_last_t : LogexpTest :=
  { vxid := LE_LAST, tag := LE_ANY, vre := none, skip_max := 0 }

/-- Sample record with non-negative vxid and tag. -/
def sample_pos : VSLRec :=
  { vslMatch := true, vxid := 5, tag := 3, data := [], len := 1 }

/-- Sample command environment: all collaborators succeed, the joined thread
did not fail. -/
def sample_env : CmdEnv :=
  { n2g := fun _ => 0, vslArgOk := fun _ _ => true,
    macroExp := fun s => some s, specTests := fun _ => [],
    threadFailed := false }

/-- Sample running Engine configuration. -/
def sample_cfg : LogexpCfg :=
  { run := true, d_arg := 0, g_arg := 0, query := none, n_arg := none,
    tests := [], vslArgs := [] }

/-! ## Helper lemmas -/

/-- The ok computation is the conjunction of the vxid check, the tag check
and the scoped regex check. -/
theorem logexp_ok_eq (le : LEStateR) (t : LogexpTest) (r : VSLRec) :
    logexp_ok le t r = (vxid_ok le t r && tag_ok le t r && vre_ok t r) := by
  unfold logexp_ok vxid_ok tag_ok vre_ok
  simp only [LE_ANY, LE_LAST]
  rcases hv : t.vre with _ | m <;> simp only [hv] <;> split_ifs <;>
    first
      | rfl
      | (exfalso; omega)
      | simp_all

/-- Inversion of a MATCH step. -/
theorem logexp_step_match {tests : List LogexpTest} {le le' : LEStateR}
    {t : LogexpTest} {r : VSLRec}
    (h : logexp_step tests le t r = (.MATCH, le')) :
    logexp_ok le t r = true ∧
    le' = logexp_next tests
      { le with vxid_last := r.vxid, tag_last := r.tag, skip_cnt := 0 } := by
  unfold logexp_step at h
  split_ifs at h with h1 h2 <;> simp_all

/-- Inversion of a SKIP step. -/
theorem logexp_step_skip {tests : List LogexpTest} {le le' : LEStateR}
    {t : LogexpTest} {r : VSLRec}
    (h : logexp_step tests le t r = (.SKIP, le')) :
    logexp_ok le t r = false ∧
    (t.skip_max = LE_ANY ∨ le.skip_cnt < t.skip_max) ∧
    le' = { le with skip_cnt := le.skip_cnt + 1 } := by
  unfold logexp_step at h
  split_ifs at h with h1 h2 <;> simp_all

/-- Inversion of a FAIL step. -/
theorem logexp_step_fail {tests : List LogexpTest} {le le' : LEStateR}
    {t : LogexpTest} {r : VSLRec}
    (h : logexp_step tests le t r = (.FAIL, le')) :
    logexp_ok le t r = false ∧
    ¬(t.skip_max = LE_ANY ∨ le.skip_cnt < t.skip_max) ∧
    le' = le := by
  unfold logexp_step at h
  split_ifs at h with h1 h2 <;> simp_all

/-- `countMatch` over an appended trace. -/
theorem countMatch_append (tr tr' : List LEEvent) :
    countMatch (tr ++ tr') = countMatch tr + countMatch tr' := by
  induction tr with
  | nil => simp [countMatch]
  | cons e es ih => simp [countMatch, ih]; omega

/-- `lastCls` of a cons with a nonempty tail. -/
theorem lastCls_cons (e : LEEvent) (tr : List LEEvent) (h : tr ≠ []) :
    lastCls (e :: tr) = lastCls tr := by
  cases tr with
  | nil => simp at h
  | cons x xs => rfl

/-- `lastCls` over an appended trace with a nonempty right part. -/
theorem lastCls_append (tr tr' : List LEEvent) (h : tr' ≠ []) :
    lastCls (tr ++ tr') = lastCls tr' := by
  induction tr with
  | nil => rfl
  | cons e es ih =>
    have hne : es ++ tr' ≠ [] := by
      cases es <;> cases tr' <;> simp_all
    rw [List.cons_append, lastCls_cons e (es ++ tr') hne, ih]

/-- A trace whose `lastCls` is some classification contains an event with
that classification. -/
theorem lastCls_mem {tr : List LEEvent} {c : Classification}
    (h : lastCls tr = some c) : ∃ e ∈ tr, e.cls = c := by
  induction tr with
  | nil => simp [lastCls] at h
  | cons e es ih =>
    cases es with
    | nil =>
      refine ⟨e, by simp, ?_⟩
      simpa [lastCls] using h
    | cons x xs =>
      rw [lastCls_cons e (x :: xs) (by simp)] at h
      obtain ⟨e', he', hc⟩ := ih h
      exact ⟨e', by simp [he'], hc⟩

/-- Skip-budget helper: while the active Pattern `t` has a finite skip
budget, a trace consisting only of SKIP classifications is bounded by the
remaining budget. -/
theorem trace_all_skip_bound (tests : List LogexpTest) :
    ∀ (recs : List VSLRec) (le : LEStateR) (i : Nat) (t : LogexpTest),
      le.test = some i → tests[i]? = some t → 0 ≤ t.skip_max →
      le.skip_cnt ≤ t.skip_max →
      (∀ e ∈ logexp_trace tests le recs, e.cls = Classification.SKIP) →
      ((logexp_trace tests le recs).length : Int) + le.skip_cnt ≤
        t.skip_max := by
  intro recs
  induction recs with
  | nil =>
    intro le i t h1 h2 h3 h4 _
    simp [logexp_trace]
    omega
  | cons r rs ih =>
    intro le i t h1 h2 h3 h4 hall
    by_cases hm : r.vslMatch = false
    · rw [logexp_trace, if_pos hm] at hall ⊢
      exact ih le i t h1 h2 h3 h4 hall
    · by_cases hb : r.tag = SLT_Batch
      · simp only [logexp_trace, if_neg hm, h1, h2, if_pos hb] at hall ⊢
        exact ih le i t h1 h2 h3 h4 hall
      · simp only [logexp_trace, if_neg hm, h1, h2, if_neg hb] at hall ⊢
        rcases hs : logexp_step tests le t r with ⟨c, le'⟩
        cases c with
        | MATCH =>
          simp only [hs] at hall
          have := hall ⟨i, .MATCH⟩ (by simp)
          simp at this
        | SKIP =>
          simp only [hs] at hall ⊢
          obtain ⟨hok, hcond, hle'⟩ := logexp_step_skip hs
          have hcnt : le.skip_cnt < t.skip_max := by
            rcases hcond with hc | hc
            · rw [hc] at h3; simp [LE_ANY] at h3
            · exact hc
          have h1' : le'.test = some i := by rw [hle']; exact h1
          have h4' : le'.skip_cnt ≤ t.skip_max := by
            rw [hle']; simp; omega
          have hall' : ∀ e ∈ logexp_trace tests le' rs,
              e.cls = Classification.SKIP := by
            intro e he
            exact hall e (by simp [he])
          have hlen := ih le' i t h1' h2 h3 h4' hall'
          have hsc : le'.skip_cnt = le.skip_cnt + 1 := by rw [hle']
          rw [hsc] at hlen
          simp only [List.length_cons]
          push_cast
          omega
        | FAIL =>
          simp only [hs] at hall
          have := hall ⟨i, .FAIL⟩ (by simp)
          simp at this

/-! ## Claims -/

/-- claim C2: for the active Pattern `p` and a record that is not ok, the
classification is SKIP (with `skip_count` incremented by one) iff
`p.skip_max` is ANY or `skip_count < p.skip_max`, and FAIL otherwise; and
for a Pattern with finite skip budget N, at most N consecutive SKIP
classifications occur against it (an all-SKIP trace from a fresh skip
counter has length at most N). -/
theorem claim_C2 (tests : List LogexpTest) (le : LEStateR) (t : LogexpTest)
    (r : VSLRec) (recs : List VSLRec) (i : Nat)
    (hok : logexp_ok le t r = false) :
    ((logexp_step tests le t r).1 = Classification.SKIP ↔
       (t.skip_max = LE_ANY ∨ le.skip_cnt < t.skip_max)) ∧
    ((logexp_step tests le t r).1 = Classification.SKIP →
       (logexp_step tests le t r).2.skip_cnt = le.skip_cnt + 1) ∧
    (¬(t.skip_max = LE_ANY ∨ le.skip_cnt < t.skip_max) →
       (logexp_step tests le t r).1 = Classification.FAIL) ∧
    (le.test = some i → tests[i]? = some t → 0 ≤ t.skip_max →
       le.skip_cnt = 0 →
       (∀ e ∈ logexp_trace tests le recs, e.cls = Classification.SKIP) →
       ((logexp_trace tests le recs).length : Int) ≤ t.skip_max) := by
  refine ⟨?_, ?_, ?_, ?_⟩
  · by_cases hc : t.skip_max = LE_ANY ∨ le.skip_cnt < t.skip_max <;>
      simp [logexp_step, hok, hc]
  · intro hs
    by_cases hc : t.skip_max = LE_ANY ∨ le.skip_cnt < t.skip_max <;>
      simp_all [logexp_step, hok, hc]
  · intro hc
    simp [logexp_step, hok, hc]
  · intro h1 h2 h3 h4 hall
    have := trace_all_skip_bound tests recs le i t h1 h2 h3 (by omega) hall
    omega

/-- claim C2 witness: with Pattern (vxid 0, tag 0, skip budget 2) and the
non-matching record (vxid 5), the classification is SKIP, the skip counter
becomes 1, and a two-record all-SKIP trace stays within the budget 2. -/
theorem claim_C2_witness :
    (logexp_step [sample_t] sample_le sample_t sample_miss).1 =
      Classification.SKIP ∧
    (logexp_step [sample_t] sample_le sample_t sample_miss).2.skip_cnt = 1 ∧
    ((logexp_trace [sample_t] sample_le [sample_miss, sample_miss]).length :
        Int) ≤ sample_t.skip_max := by
  have h := claim_C2 [sample_t] sample_le sample_t sample_miss
    [sample_miss, sample_miss] 0 (by decide)
  have hskip := h.1.mpr (by decide)
  refine ⟨hskip, ?_, ?_⟩
  · simpa using h.2.1 hskip
  · simpa using h.2.2.2 (by decide) (by rfl) (by decide) (by decide)
      (by decide)

/-- claim C4: the regex check is applied iff the Pattern has a regex, its
tag matcher is an exact tag, and that tag equals the record's tag; an
applied regex non-match forces ok false; with an ANY or LAST tag matcher a
present regex never changes the outcome; with an exact tag matcher
different from the record's tag the outcome is false regardless of the
regex. -/
theorem claim_C4 (le : LEStateR) (t : LogexpTest) (r : VSLRec) :
    ((t.tag = LE_ANY ∨ t.tag = LE_LAST) →
       ∀ v, logexp_ok le { t with vre := v } r =
         logexp_ok le { t with vre := none } r) ∧
    (0 ≤ t.tag → t.tag ≠ r.tag →
       ∀ v, logexp_ok le { t with vre := v } r = false) ∧
    (∀ m, 0 ≤ t.tag → t.tag = r.tag → t.vre = some m →
       m (vre_input r.data (r.len - 1)) = false →
       logexp_ok le t r = false) ∧
    (∀ m, 0 ≤ t.tag → t.tag = r.tag → t.vre = some m →
       m (vre_input r.data (r.len - 1)) = true →
       logexp_ok le t r = logexp_ok le { t with vre := none } r) := by
  refine ⟨?_, ?_, ?_, ?_⟩
  · intro h v
    have hneg : ¬(0 ≤ t.tag) := by
      rcases h with h | h <;> rw [h] <;> simp [LE_ANY, LE_LAST]
    rw [logexp_ok_eq, logexp_ok_eq]
    rcases v with _ | m <;> simp [vxid_ok, tag_ok, vre_ok, hneg]
  · intro h0 hne v
    have hL : tag_ok le { t with vre := v } r = false := by
      have hnl : t.tag ≠ LE_LAST := by simp [LE_LAST]; omega
      simp [tag_ok, hnl, h0, hne]
    rw [logexp_ok_eq]
    simp [hL]
  · intro m h0 heq hv hm
    have hV : vre_ok t r = false := by
      simp only [vre_ok, hv]
      rw [if_pos ⟨h0, heq⟩]
      exact hm
    rw [logexp_ok_eq]
    simp [hV]
  · intro m h0 heq hv hm
    rw [logexp_ok_eq, logexp_ok_eq]
    simp [vxid_ok, tag_ok, vre_ok, hv, h0, heq, hm]

/-- claim C4 witness: with an ANY tag matcher an always-rejecting regex does
not change the outcome of the matching record; with an exact tag matcher
equal to the record's tag a rejecting regex forces ok false. -/
theorem claim_C4_witness :
    logexp_ok sample_le
      { vxid := -1, tag := LE_ANY, vre := some (fun _ => false),
        skip_max := 0 } sample_hit =
      logexp_ok sample_le
        { vxid := -1, tag := LE_ANY, vre := none, skip_max := 0 }
        sample_hit ∧
    logexp_ok sample_le
      { vxid := -1, tag := 0, vre := some (fun _ => false), skip_max := 0 }
      sample_hit = false := by
  constructor
  · exact (claim_C4 sample_le
      { vxid := -1, tag := LE_ANY, vre := some (fun _ => false),
        skip_max := 0 } sample_hit).1 (Or.inl rfl) (some (fun _ => false))
  · exact (claim_C4 sample_le
      { vxid := -1, tag := 0, vre := some (fun _ => false), skip_max := 0 }
      sample_hit).2.2.1 (fun _ => false) (by decide) (by rfl) (by rfl)
      (by rfl)

/-- claim C6: `last_vxid`/`last_tag` are set to the record's values and
`skip_count` is cleared exactly on a MATCH classification; a SKIP changes
the state only by incrementing `skip_count`; a FAIL leaves the state
untouched. -/
theorem claim_C6 (tests : List LogexpTest) (le : LEStateR) (t : LogexpTest)
    (r : VSLRec) :
    ((logexp_step tests le t r).1 = Classification.MATCH →
       (logexp_step tests le t r).2.vxid_last = r.vxid ∧
       (logexp_step tests le t r).2.tag_last = r.tag ∧
       (logexp_step tests le t r).2.skip_cnt = 0) ∧
    ((logexp_step tests le t r).1 = Classification.SKIP →
       (logexp_step tests le t r).2 =
         { le with skip_cnt := le.skip_cnt + 1 }) ∧
    ((logexp_step tests le t r).1 = Classification.FAIL →
       (logexp_step tests le t r).2 = le) := by
  refine ⟨?_, ?_, ?_⟩ <;> intro h <;>
    rcases hs : logexp_step tests le t r with ⟨c, le'⟩ <;>
    rw [hs] at h <;> simp at h <;> subst h
  · obtain ⟨-, hle'⟩ := logexp_step_match hs
    simp [hle', logexp_next]
  · obtain ⟨-, -, hle'⟩ := logexp_step_skip hs
    simpa using hle'
  · obtain ⟨-, -, hle'⟩ := logexp_step_fail hs
    simpa using hle'

/-- claim C6 witness: the matching sample record yields MATCH and records
vxid 0, tag 0, clears the skip counter; the non-matching sample record
yields SKIP and only increments the skip counter. -/
theorem claim_C6_witness :
    (logexp_step [sample_t] sample_le sample_t sample_hit).2.vxid_last = 0 ∧
    (logexp_step [sample_t] sample_le sample_t sample_hit).2.tag_last = 0 ∧
    (logexp_step [sample_t] sample_le sample_t sample_hit).2.skip_cnt = 0 ∧
    (logexp_step [sample_t] sample_le sample_t sample_miss).2 =
      { sample_le with skip_cnt := sample_le.skip_cnt + 1 } := by
  have h1 := (claim_C6 [sample_t] sample_le sample_t sample_hit).1 (by decide)
  have h2 := (claim_C6 [sample_t] sample_le sample_t sample_miss).2.1
    (by decide)
  exact ⟨h1.1, h1.2.1, h1.2.2, h2⟩

/-- claim C10: the byte sequence submitted to the regex engine has length
one less than the record's declared payload length — the final declared
payload byte is excluded — and the ok computation depends on the regex only
through its value on exactly that sequence. -/
theorem claim_C10 (le : LEStateR) (t : LogexpTest) (r : VSLRec)
    (m1 m2 : List Char → Bool) :
    (r.len = (r.data.length : Int) → 1 ≤ r.len →
       vre_input r.data (r.len - 1) = r.data.dropLast ∧
       (vre_input r.data (r.len - 1)).length = r.data.length - 1) ∧
    (m1 (vre_input r.data (r.len - 1)) = m2 (vre_input r.data (r.len - 1)) →
       logexp_ok le { t with vre := some m1 } r =
         logexp_ok le { t with vre := some m2 } r) := by
  constructor
  · intro hlen h1
    have ht : (r.len - 1).toNat = r.data.length - 1 := by omega
    constructor
    · rw [vre_input, ht]
      exact (List.dropLast_eq_take r.data).symm
    · rw [vre_input, ht]
      simp [List.length_take]
  · intro hm
    rw [logexp_ok_eq, logexp_ok_eq]
    by_cases hc : 0 ≤ t.tag ∧ t.tag = r.tag <;>
      simp [vxid_ok, tag_ok, vre_ok, hc, hm]

/-- claim C10 witness: on the two-byte sample record the regex engine sees
exactly the first byte (the declared payload minus its final byte), and two
matchers agreeing on that byte yield the same ok outcome. -/
theorem claim_C10_witness :
    vre_input sample_rx.data (sample_rx.len - 1) = sample_rx.data.dropLast ∧
    logexp_ok sample_le
        { sample_t with vre := some (fun l => decide (l.length = 1)) }
        sample_rx =
      logexp_ok sample_le { sample_t with vre := some (fun _ => true) }
        sample_rx := by
  have h := claim_C10 sample_le sample_t sample_rx
    (fun l => decide (l.length = 1)) (fun _ => true)
  exact ⟨(h.1 (by decide) (by decide)).1, h.2 (by rfl)⟩

/-- claim C9: starting a run with an empty Pattern list terminates at once
with success — the initial advance leaves the cursor at none, the dispatch
loop body is never entered, and no record is classified. -/
theorem claim_C9 (batches : List (List (List VSLRec))) :
    logexp_thread [] batches = RunOutcome.success ∧
    logexp_thread_trace [] batches = [] ∧
    (logexp_next [] logexp_init).test = none := by
  have hnext : (logexp_next [] logexp_init).test = none := by
    simp [logexp_next, logexp_init]
  refine ⟨?_, ?_, hnext⟩
  · unfold logexp_thread
    cases batches with
    | nil => simp [logexp_run_loop, hnext]
    | cons b bs => simp [logexp_run_loop, hnext]
  · unfold logexp_thread_trace
    cases batches with
    | nil => simp [logexp_run_trace]
    | cons b bs => simp [logexp_run_trace, hnext]

/-- Appending record lists: the inner loop continues into the appended part
exactly when the first part returned 0. -/
theorem dispatch_recs_append (tests : List LogexpTest) (xs ys : List VSLRec) :
    ∀ le, logexp_dispatch_recs tests le (xs ++ ys) =
      (if (logexp_dispatch_recs tests le xs).1 = 0
       then logexp_dispatch_recs tests (logexp_dispatch_recs tests le xs).2 ys
       else logexp_dispatch_recs tests le xs) := by
  induction xs with
  | nil => intro le; simp [logexp_dispatch_recs]
  | cons r rs ih =>
    intro le
    simp only [List.cons_append]
    by_cases hm : r.vslMatch = false
    · simp only [logexp_dispatch_recs, if_pos hm]
      exact ih le
    · cases ht : le.test with
      | none => simp [logexp_dispatch_recs, if_neg hm, ht]
      | some i =>
        cases hti : tests[i]? with
        | none => simp [logexp_dispatch_recs, if_neg hm, ht, hti]
        | some t =>
          by_cases hb : r.tag = SLT_Batch
          · simp only [logexp_dispatch_recs, if_neg hm, ht, hti, if_pos hb]
            exact ih le
          · rcases hs : logexp_step tests le t r with ⟨c, le'⟩
            cases c with
            | MATCH =>
              by_cases hn : le'.test = none
              · simp [logexp_dispatch_recs, if_neg hm, ht, hti, if_neg hb,
                  hs, hn]
              · simp only [logexp_dispatch_recs, if_neg hm, ht, hti,
                  if_neg hb, hs, if_neg hn]
                exact ih le'
            | SKIP =>
              simp only [logexp_dispatch_recs, if_neg hm, ht, hti, if_neg hb,
                hs]
              exact ih le'
            | FAIL =>
              simp [logexp_dispatch_recs, if_neg hm, ht, hti, if_neg hb, hs]

/-- One dispatch call over a batch of transactions equals the inner loop
over the flattened record sequence. -/
theorem dispatch_join (tests : List LogexpTest) (txs : List (List VSLRec)) :
    ∀ le, logexp_dispatch tests le txs =
      logexp_dispatch_recs tests le txs.flatten := by
  induction txs with
  | nil => intro le; simp [logexp_dispatch, logexp_dispatch_recs]
  | cons tx txs ih =>
    intro le
    rw [List.flatten_cons, dispatch_recs_append tests tx txs.flatten le]
    simp only [logexp_dispatch]
    rcases h : logexp_dispatch_recs tests le tx with ⟨i, le'⟩
    by_cases hi : i = 0 <;> simp [h, hi, ih]

/-- Master characterization of the inner dispatch loop started at a valid
Pattern pointer: the return code is 0, 1 or 2; on 0 the pointer advanced by
the number of matches and the run is still open with no FAIL; on 1 the
Pattern list was exhausted, the matches account for all remaining Patterns,
no FAIL occurred, and the last event is the exhausting MATCH; on 2 the last
event is the FAIL. -/
theorem dispatch_recs_spec (tests : List LogexpTest) :
    ∀ (recs : List VSLRec) (le : LEStateR) (i : Nat),
      le.test = some i → i < tests.length →
      ((logexp_dispatch_recs tests le recs).1 = 0 ∨
       (logexp_dispatch_recs tests le recs).1 = 1 ∨
       (logexp_dispatch_recs tests le recs).1 = 2) ∧
      ((logexp_dispatch_recs tests le recs).1 = 0 →
         (logexp_dispatch_recs tests le recs).2.test =
           some (i + countMatch (logexp_trace tests le recs)) ∧
         i + countMatch (logexp_trace tests le recs) < tests.length ∧
         noFail (logexp_trace tests le recs)) ∧
      ((logexp_dispatch_recs tests le recs).1 = 1 →
         (logexp_dispatch_recs tests le recs).2.test = none ∧
         i + countMatch (logexp_trace tests le recs) = tests.length ∧
         noFail (logexp_trace tests le recs) ∧
         lastCls (logexp_trace tests le recs) = some Classification.MATCH) ∧
      ((logexp_dispatch_recs tests le recs).1 = 2 →
         lastCls (logexp_trace tests le recs) = some Classification.FAIL ∧
         ¬noFail (logexp_trace tests le recs)) := by
  intro recs
  induction recs with
  | nil =>
    intro le i h1 h2
    simp only [logexp_dispatch_recs, logexp_trace]
    refine ⟨by simp, ?_, ?_, ?_⟩
    · intro _
      simp [countMatch, noFail, h1, h2]
    · intro h; simp at h
    · intro h; simp at h
  | cons r rs ih =>
    intro le i h1 h2
    have hti : tests[i]? = some tests[i] := List.getElem?_eq_getElem h2
    by_cases hm : r.vslMatch = false
    · simp only [logexp_dispatch_recs, logexp_trace, if_pos hm]
      exact ih le i h1 h2
    · by_cases hb : r.tag = SLT_Batch
      · simp only [logexp_dispatch_recs, logexp_trace, if_neg hm, h1, hti,
          if_pos hb]
        exact ih le i h1 h2
      · rcases hs : logexp_step tests le tests[i] r with ⟨c, le'⟩
        simp only [logexp_dispatch_recs, logexp_trace, if_neg hm, h1, hti,
          if_neg hb, hs]
        cases c with
        | MATCH =>
          obtain ⟨hok, hle'⟩ := logexp_step_match hs
          have htest : le'.test =
              if i + 1 < tests.length then some (i + 1) else none := by
            rw [hle']
            simp [logexp_next, h1]
          by_cases hnn : i + 1 < tests.length
          · have h1' : le'.test = some (i + 1) := by rw [htest, if_pos hnn]
            have hne : le'.test ≠ none := by rw [h1']; simp
            simp only [if_neg hne]
            obtain ⟨g1, g2, g3, g4⟩ := ih le' (i + 1) h1' hnn
            refine ⟨g1, ?_, ?_, ?_⟩
            · intro h0
              obtain ⟨k1, k2, k3⟩ := g2 h0
              refine ⟨?_, ?_, ?_⟩
              · rw [k1]
                simp [countMatch]
                omega
              · simp [countMatch]; omega
              · simp [noFail] at k3 ⊢
                exact k3
            · intro h0
              obtain ⟨k1, k2, k3, k4⟩ := g3 h0
              have htr : logexp_trace tests le' rs ≠ [] := by
                intro hemp
                rw [hemp] at k4
                simp [lastCls] at k4
              refine ⟨k1, ?_, ?_, ?_⟩
              · simp [countMatch]; omega
              · simp [noFail] at k3 ⊢
                exact k3
              · rw [lastCls_cons _ _ htr]
                exact k4
            · intro h0
              obtain ⟨k1, k2⟩ := g4 h0
              have htr : logexp_trace tests le' rs ≠ [] := by
                intro hemp
                rw [hemp] at k1
                simp [lastCls] at k1
              refine ⟨?_, ?_⟩
              · rw [lastCls_cons _ _ htr]
                exact k1
              · simp [noFail] at k2 ⊢
                exact k2
          · have h1' : le'.test = none := by rw [htest, if_neg hnn]
            simp only [if_pos h1']
            have hieq : i + 1 = tests.length := by omega
            refine ⟨by simp, ?_, ?_, ?_⟩
            · intro h0; simp at h0
            · intro _
              refine ⟨h1', ?_, ?_, ?_⟩
              · simp [countMatch]
                omega
              · simp [noFail]
              · simp [lastCls]
            · intro h0; simp at h0
        | SKIP =>
          obtain ⟨hok, hcond, hle'⟩ := logexp_step_skip hs
          have h1' : le'.test = some i := by rw [hle']; exact h1
          obtain ⟨g1, g2, g3, g4⟩ := ih le' i h1' h2
          refine ⟨g1, ?_, ?_, ?_⟩
          · intro h0
            obtain ⟨k1, k2, k3⟩ := g2 h0
            refine ⟨?_, ?_, ?_⟩
            · rw [k1]; simp [countMatch]
            · simp [countMatch]; omega
            · simp [noFail] at k3 ⊢
              exact k3
          · intro h0
            obtain ⟨k1, k2, k3, k4⟩ := g3 h0
            have htr : logexp_trace tests le' rs ≠ [] := by
              intro hemp
              rw [hemp] at k4
              simp [lastCls] at k4
            refine ⟨k1, ?_, ?_, ?_⟩
            · simp [countMatch]; omega
            · simp [noFail] at k3 ⊢
              exact k3
            · rw [lastCls_cons _ _ htr]
              exact k4
          · intro h0
            obtain ⟨k1, k2⟩ := g4 h0
            have htr : logexp_trace tests le' rs ≠ [] := by
              intro hemp
              rw [hemp] at k1
              simp [lastCls] at k1
            refine ⟨?_, ?_⟩
            · rw [lastCls_cons _ _ htr]
              exact k1
            · simp [noFail] at k2 ⊢
              obtain ⟨e, he, hc⟩ := k2
              exact ⟨e, he, hc⟩
        | FAIL =>
          refine ⟨by simp, ?_, ?_, ?_⟩
          · intro h0; simp at h0
          · intro h0; simp at h0
          · intro _
            refine ⟨by simp [lastCls], ?_⟩
            simp [noFail]

/-- `noFail` splits over appended traces. -/
theorem noFail_append (tr tr' : List LEEvent) :
    noFail (tr ++ tr') ↔ noFail tr ∧ noFail tr' := by
  simp only [noFail, List.mem_append]
  constructor
  · intro h
    exact ⟨fun e he => h e (Or.inl he), fun e he => h e (Or.inr he)⟩
  · rintro ⟨ha, hb⟩ e (he | he)
    · exact ha e he
    · exact hb e he

/-- The dispatch loop with an exhausted Pattern pointer succeeds at once. -/
theorem run_loop_none (tests : List LogexpTest) (le : LEStateR)
    (bs : List (List (List VSLRec))) (h : le.test = none) :
    logexp_run_loop tests le bs = RunOutcome.success := by
  cases bs <;> simp [logexp_run_loop, h]

/-- The dispatch loop with an exhausted Pattern pointer classifies
nothing. -/
theorem run_trace_none (tests : List LogexpTest) (le : LEStateR)
    (bs : List (List (List VSLRec))) (h : le.test = none) :
    logexp_run_trace tests le bs = [] := by
  cases bs <;> simp [logexp_run_trace, h]

/-- The dispatch loop started at a valid Pattern pointer succeeds iff its
trace has no FAIL, its matches exhaust the remaining Patterns, and its final
event is a MATCH. -/
theorem run_loop_spec (tests : List LogexpTest) :
    ∀ (batches : List (List (List VSLRec))) (le : LEStateR) (i : Nat),
      le.test = some i → i < tests.length →
      (logexp_run_loop tests le batches = RunOutcome.success ↔
        (noFail (logexp_run_trace tests le batches) ∧
         i + countMatch (logexp_run_trace tests le batches) = tests.length ∧
         lastCls (logexp_run_trace tests le batches) =
           some Classification.MATCH)) := by
  intro batches
  induction batches with
  | nil =>
    intro le i h1 h2
    have hne : le.test ≠ none := by rw [h1]; simp
    simp only [logexp_run_loop, logexp_run_trace, if_neg hne]
    constructor
    · intro h; simp at h
    · rintro ⟨-, hcm, -⟩
      simp [countMatch] at hcm
      omega
  | cons b bs ih =>
    intro le i h1 h2
    have hne : le.test ≠ none := by rw [h1]; simp
    simp only [logexp_run_loop, logexp_run_trace, if_neg hne]
    rw [dispatch_join tests b le]
    rcases hd : logexp_dispatch_recs tests le b.flatten with ⟨j, le'⟩
    obtain ⟨g1, g2, g3, g4⟩ := dispatch_recs_spec tests b.flatten le i h1 h2
    rw [hd] at g1 g2 g3 g4
    simp only [hd]
    rcases g1 with hj | hj | hj
    · subst hj
      obtain ⟨k1, k2, k3⟩ := g2 rfl
      norm_num
      rw [ih le' (i + countMatch (logexp_trace tests le b.flatten)) k1 k2]
      constructor
      · rintro ⟨n2, c2, l2⟩
        have hrt : logexp_run_trace tests le' bs ≠ [] := by
          intro hemp
          rw [hemp] at l2
          simp [lastCls] at l2
        refine ⟨?_, ?_, ?_⟩
        · rw [noFail_append]; exact ⟨k3, n2⟩
        · rw [countMatch_append]; omega
        · rw [lastCls_append _ _ hrt]; exact l2
      · rintro ⟨n, c, l⟩
        rw [noFail_append] at n
        rw [countMatch_append] at c
        have hne2 : logexp_run_trace tests le' bs ≠ [] := by
          intro hemp
          rw [hemp] at c
          simp [countMatch] at c
          omega
        refine ⟨n.2, by omega, ?_⟩
        rw [lastCls_append _ _ hne2] at l
        exact l
    · subst hj
      obtain ⟨k1, k2, k3, k4⟩ := g3 rfl
      norm_num
      rw [run_loop_none tests le' bs k1, run_trace_none tests le' bs k1,
        List.append_nil]
      simp only [true_iff]
      exact ⟨k3, k2, k4⟩
    · subst hj
      obtain ⟨k1, k2⟩ := g4 rfl
      norm_num
      constructor
      · intro h; simp at h
      · rintro ⟨n, -, -⟩
        exact absurd n k2

/-- claim C1: a run succeeds exactly when every classified record is MATCH
or SKIP and the terminal classification exhausts the Pattern list via MATCH
(the empty Pattern list succeeding immediately). -/
theorem claim_C1 (tests : List LogexpTest)
    (batches : List (List (List VSLRec))) :
    logexp_thread tests batches = RunOutcome.success ↔
      (noFail (logexp_thread_trace tests batches) ∧
       (tests = [] ∨
        (countMatch (logexp_thread_trace tests batches) = tests.length ∧
         lastCls (logexp_thread_trace tests batches) =
           some Classification.MATCH))) := by
  unfold logexp_thread logexp_thread_trace
  cases tests with
  | nil =>
    have hnext : (logexp_next [] logexp_init).test = none := by
      simp [logexp_next, logexp_init]
    rw [run_loop_none _ _ _ hnext, run_trace_none _ _ _ hnext]
    simp [noFail]
  | cons t0 ts =>
    have hnext : (logexp_next (t0 :: ts) logexp_init).test = some 0 := by
      simp [logexp_next, logexp_init]
    rw [run_loop_spec (t0 :: ts) batches (logexp_next (t0 :: ts) logexp_init)
      0 hnext (by simp)]
    constructor
    · rintro ⟨n, c, l⟩
      exact ⟨n, Or.inr ⟨by simpa using c, l⟩⟩
    · rintro ⟨n, hd | ⟨c, l⟩⟩
      · simp at hd
      · exact ⟨n, by simpa using c, l⟩

/-- claim C5: one dispatch call from a valid Pattern pointer returns exactly
0 (batch exhausted, run still open), 1 (Pattern list exhausted by a MATCH
during this call) or 2 (a FAIL occurred); and on a non-zero return the call
is insensitive to any further transactions appended to the batch (the
remaining records are not evaluated). -/
theorem claim_C5 (tests : List LogexpTest) (txs : List (List VSLRec))
    (le : LEStateR) (i : Nat) (h1 : le.test = some i)
    (h2 : i < tests.length) :
    ((logexp_dispatch tests le txs).1 = 0 ∨
     (logexp_dispatch tests le txs).1 = 1 ∨
     (logexp_dispatch tests le txs).1 = 2) ∧
    ((logexp_dispatch tests le txs).1 = 0 →
       (logexp_dispatch tests le txs).2.test ≠ none) ∧
    ((logexp_dispatch tests le txs).1 = 1 →
       (logexp_dispatch tests le txs).2.test = none ∧
       lastCls (logexp_trace tests le txs.flatten) =
         some Classification.MATCH) ∧
    ((logexp_dispatch tests le txs).1 = 2 →
       lastCls (logexp_trace tests le txs.flatten) =
         some Classification.FAIL) ∧
    ((logexp_dispatch tests le txs).1 ≠ 0 →
       ∀ extra, logexp_dispatch tests le (txs ++ extra) =
         logexp_dispatch tests le txs) := by
  obtain ⟨g1, g2, g3, g4⟩ := dispatch_recs_spec tests txs.flatten le i h1 h2
  rw [← dispatch_join tests txs le] at g1 g2 g3 g4
  refine ⟨g1, ?_, ?_, ?_, ?_⟩
  · intro h0
    obtain ⟨k1, -, -⟩ := g2 h0
    rw [k1]
    simp
  · intro h0
    obtain ⟨k1, -, -, k4⟩ := g3 h0
    exact ⟨k1, k4⟩
  · intro h0
    exact (g4 h0).1
  · intro h0 extra
    have h0' : (logexp_dispatch_recs tests le txs.flatten).1 ≠ 0 := by
      rw [← dispatch_join tests txs le]
      exact h0
    rw [dispatch_join tests (txs ++ extra) le, dispatch_join tests txs le,
      List.flatten_append,
      dispatch_recs_append tests txs.flatten extra.flatten le, if_neg h0']

/-- claim C5 witness: with one Pattern and a matching first record the call
returns 1 with the cursor exhausted, and appending another transaction to
the same call leaves the result untouched. -/
theorem claim_C5_witness :
    (logexp_dispatch [sample_t] sample_le [[sample_hit]]).1 = 1 ∧
    (logexp_dispatch [sample_t] sample_le [[sample_hit]]).2.test = none ∧
    logexp_dispatch [sample_t] sample_le ([[sample_hit]] ++ [[sample_miss]]) =
      logexp_dispatch [sample_t] sample_le [[sample_hit]] := by
  have h := claim_C5 [sample_t] [[sample_hit]] sample_le 0 (by rfl) (by simp)
  refine ⟨by decide, (h.2.2.1 (by decide)).1, h.2.2.2.2 (by decide)
    [[sample_miss]]⟩

/-- A record with non-negative vxid and tag can only be ok against a
LAST-matcher Pattern after a prior match recorded the fields — with the
sentinels still at -1 the Pattern cannot be ok. -/
theorem logexp_ok_not_last {le : LEStateR} {t : LogexpTest} {r : VSLRec}
    (hok : logexp_ok le t r = true) (hv : le.vxid_last = -1)
    (ht : le.tag_last = -1) (hrv : 0 ≤ r.vxid) (hrt : 0 ≤ r.tag) :
    ¬(t.vxid = LE_LAST ∨ t.tag = LE_LAST) := by
  rw [logexp_ok_eq] at hok
  simp only [Bool.and_eq_true] at hok
  obtain ⟨⟨hvx, htg⟩, -⟩ := hok
  rintro (h | h)
  · rw [vxid_ok, if_pos h] at hvx
    simp at hvx
    omega
  · rw [tag_ok, if_pos h] at htg
    simp at htg
    omega

/-- In a record trace started with both back-reference sentinels at -1 and
all records carrying non-negative vxid and tag, an event with no earlier
MATCH cannot be a MATCH of a Pattern whose vxid or tag matcher is LAST. -/
theorem trace_no_prior_match (tests : List LogexpTest) :
    ∀ (recs : List VSLRec) (le : LEStateR) (k : Nat) (e : LEEvent)
      (t : LogexpTest),
      le.vxid_last = -1 → le.tag_last = -1 →
      (∀ r ∈ recs, 0 ≤ r.vxid ∧ 0 ≤ r.tag) →
      (logexp_trace tests le recs)[k]? = some e →
      tests[e.idx]? = some t →
      (t.vxid = LE_LAST ∨ t.tag = LE_LAST) →
      (∀ j, j < k → ∀ e2, (logexp_trace tests le recs)[j]? = some e2 →
        e2.cls ≠ Classification.MATCH) →
      e.cls ≠ Classification.MATCH := by
  intro recs
  induction recs with
  | nil =>
    intro le k e t _ _ _ he _ _ _
    simp [logexp_trace] at he
  | cons r rs ih =>
    intro le k e t hP1 hP2 hwf he ht hlast hprior
    have hwfr := hwf r (by simp)
    have hwft : ∀ x ∈ rs, 0 ≤ x.vxid ∧ 0 ≤ x.tag := fun x hx =>
      hwf x (by simp [hx])
    by_cases hm : r.vslMatch = false
    · simp only [logexp_trace, if_pos hm] at he hprior
      exact ih le k e t hP1 hP2 hwft he ht hlast hprior
    · cases hts : le.test with
      | none =>
        simp only [logexp_trace, if_neg hm, hts] at he
        simp at he
      | some i =>
        cases hti : tests[i]? with
        | none =>
          simp only [logexp_trace, if_neg hm, hts, hti] at he
          simp at he
        | some tcur =>
          by_cases hb : r.tag = SLT_Batch
          · simp only [logexp_trace, if_neg hm, hts, hti, if_pos hb]
              at he hprior
            exact ih le k e t hP1 hP2 hwft he ht hlast hprior
          · rcases hs : logexp_step tests le tcur r with ⟨c, le'⟩
            simp only [logexp_trace, if_neg hm, hts, hti, if_neg hb, hs]
              at he hprior
            cases c with
            | MATCH =>
              obtain ⟨hok, -⟩ := logexp_step_match hs
              have hnl := logexp_ok_not_last hok hP1 hP2 hwfr.1 hwfr.2
              cases k with
              | zero =>
                rw [List.getElem?_cons_zero] at he
                injection he with he
                subst he
                have ht' : tests[i]? = some t := ht
                rw [hti] at ht'
                injection ht' with ht'
                subst ht'
                intro _
                exact hnl hlast
              | succ k =>
                have h0 := hprior 0 (by omega) ⟨i, .MATCH⟩
                  (by rw [List.getElem?_cons_zero])
                simp at h0
            | SKIP =>
              obtain ⟨-, -, hle'⟩ := logexp_step_skip hs
              cases k with
              | zero =>
                rw [List.getElem?_cons_zero] at he
                injection he with he
                subst he
                simp
              | succ k =>
                rw [List.getElem?_cons_succ] at he
                have hP1' : le'.vxid_last = -1 := by rw [hle']; exact hP1
                have hP2' : le'.tag_last = -1 := by rw [hle']; exact hP2
                have hprior' : ∀ j, j < k → ∀ e2,
                    (logexp_trace tests le' rs)[j]? = some e2 →
                    e2.cls ≠ Classification.MATCH := by
                  intro j hj e2 hj2
                  exact hprior (j + 1) (by omega) e2
                    (by rw [List.getElem?_cons_succ]; exact hj2)
                exact ih le' k e t hP1' hP2' hwft he ht hlast hprior'
            | FAIL =>
              cases k with
              | zero =>
                rw [List.getElem?_cons_zero] at he
                injection he with he
                subst he
                simp
              | succ k =>
                rw [List.getElem?_cons_succ] at he
                simp at he

/-- A dispatch over records classifying no MATCH leaves the back-reference
fields unchanged. -/
theorem dispatch_recs_last_noMatch (tests : List LogexpTest) :
    ∀ (recs : List VSLRec) (le : LEStateR),
      (∀ e ∈ logexp_trace tests le recs, e.cls ≠ Classification.MATCH) →
      (logexp_dispatch_recs tests le recs).2.vxid_last = le.vxid_last ∧
      (logexp_dispatch_recs tests le recs).2.tag_last = le.tag_last := by
  intro recs
  induction recs with
  | nil => intro le _; simp [logexp_dispatch_recs]
  | cons r rs ih =>
    intro le hall
    by_cases hm : r.vslMatch = false
    · simp only [logexp_dispatch_recs, logexp_trace, if_pos hm] at hall ⊢
      exact ih le hall
    · cases hts : le.test with
      | none => simp [logexp_dispatch_recs, hts, if_neg hm]
      | some i =>
        cases hti : tests[i]? with
        | none => simp [logexp_dispatch_recs, hts, hti, if_neg hm]
        | some tcur =>
          by_cases hb : r.tag = SLT_Batch
          · simp only [logexp_dispatch_recs, logexp_trace, if_neg hm, hts,
              hti, if_pos hb] at hall ⊢
            exact ih le hall
          · rcases hs : logexp_step tests le tcur r with ⟨c, le'⟩
            simp only [logexp_dispatch_recs, logexp_trace, if_neg hm, hts,
              hti, if_neg hb, hs] at hall ⊢
            cases c with
            | MATCH =>
              exact absurd (hall ⟨i, .MATCH⟩ (by simp)) (by simp)
            | SKIP =>
              obtain ⟨-, -, hle'⟩ := logexp_step_skip hs
              have hrec := ih le' (fun e he => hall e (by simp [he]))
              constructor
              · rw [hrec.1, hle']
              · rw [hrec.2, hle']
            | FAIL =>
              obtain ⟨-, -, hle'⟩ := logexp_step_fail hs
              simp [hle']

/-- Run-level back-reference invariant: over a whole run started with the
sentinels at -1 and well-formed records, an event with no earlier MATCH is
never a MATCH of a LAST-matcher Pattern. -/
theorem run_trace_no_prior_match (tests : List LogexpTest) :
    ∀ (batches : List (List (List VSLRec))) (le : LEStateR) (k : Nat)
      (e : LEEvent) (t : LogexpTest),
      le.vxid_last = -1 → le.tag_last = -1 →
      (∀ b ∈ batches, ∀ tx ∈ b, ∀ r ∈ tx, 0 ≤ r.vxid ∧ 0 ≤ r.tag) →
      (logexp_run_trace tests le batches)[k]? = some e →
      tests[e.idx]? = some t →
      (t.vxid = LE_LAST ∨ t.tag = LE_LAST) →
      (∀ j, j < k → ∀ e2,
        (logexp_run_trace tests le batches)[j]? = some e2 →
        e2.cls ≠ Classification.MATCH) →
      e.cls ≠ Classification.MATCH := by
  intro batches
  induction batches with
  | nil =>
    intro le k e t _ _ _ he _ _ _
    simp [logexp_run_trace] at he
  | cons b bs ih =>
    intro le k e t hP1 hP2 hwf he ht hlast hprior
    have hwfb : ∀ r ∈ b.flatten, 0 ≤ r.vxid ∧ 0 ≤ r.tag := by
      intro r hr
      rw [List.mem_flatten] at hr
      obtain ⟨tx, htx, hrtx⟩ := hr
      exact hwf b (by simp) tx htx r hrtx
    have hwfbs : ∀ b2 ∈ bs, ∀ tx ∈ b2, ∀ r ∈ tx, 0 ≤ r.vxid ∧ 0 ≤ r.tag :=
      fun b2 hb2 => hwf b2 (by simp [hb2])
    by_cases hn : le.test = none
    · simp only [logexp_run_trace, if_pos hn] at he
      simp at he
    · rcases hd : logexp_dispatch tests le b with ⟨j0, le'⟩
      simp only [logexp_run_trace, if_neg hn, hd] at he hprior
      by_cases hstop : j0 = 2 ∨ j0 = 3
      · simp only [if_pos hstop] at he hprior
        exact trace_no_prior_match tests b.flatten le k e t hP1 hP2 hwfb he
          ht hlast hprior
      · simp only [if_neg hstop] at he hprior
        by_cases hk : k < (logexp_trace tests le b.flatten).length
        · rw [List.getElem?_append_left hk] at he
          refine trace_no_prior_match tests b.flatten le k e t hP1 hP2 hwfb
            he ht hlast ?_
          intro j hj e2 hj2
          exact hprior j hj e2
            (by rw [List.getElem?_append_left (by omega)]; exact hj2)
        · push_neg at hk
          rw [List.getElem?_append_right hk] at he
          have hnm : ∀ e2 ∈ logexp_trace tests le b.flatten,
              e2.cls ≠ Classification.MATCH := by
            intro e2 he2
            obtain ⟨j, hj, hje⟩ := List.getElem_of_mem he2
            have hje2 : (logexp_trace tests le b.flatten)[j]? = some e2 := by
              rw [List.getElem?_eq_getElem hj, hje]
            exact hprior j (by omega) e2
              (by rw [List.getElem?_append_left hj]; exact hje2)
          have hlasts := dispatch_recs_last_noMatch tests b.flatten le hnm
          have hd2 : logexp_dispatch_recs tests le b.flatten = (j0, le') := by
            rw [← dispatch_join tests b le]
            exact hd
          rw [hd2] at hlasts
          apply ih le' (k - (logexp_trace tests le b.flatten).length) e t
            (hlasts.1.trans hP1) (hlasts.2.trans hP2) hwfbs he ht hlast
          intro j hj e2 hj2
          have hsh : (logexp_trace tests le b.flatten ++
              logexp_run_trace tests le' bs)[
                (logexp_trace tests le b.flatten).length + j]? = some e2 := by
            rw [List.getElem?_append_right (by omega)]
            simpa using hj2
          exact hprior ((logexp_trace tests le b.flatten).length + j)
            (by omega) e2 hsh

/-- claim C3: with every record's vxid and tag non-negative and the engine
initialising `last_vxid`/`last_tag` to -1, a Pattern using LAST for its vxid
or tag matcher never yields MATCH unless a prior Pattern already matched
during the run. -/
theorem claim_C3 (tests : List LogexpTest)
    (batches : List (List (List VSLRec)))
    (hwf : ∀ b ∈ batches, ∀ tx ∈ b, ∀ r ∈ tx, 0 ≤ r.vxid ∧ 0 ≤ r.tag)
    (k : Nat) (e : LEEvent) (t : LogexpTest)
    (he : (logexp_thread_trace tests batches)[k]? = some e)
    (ht : tests[e.idx]? = some t)
    (hlast : t.vxid = LE_LAST ∨ t.tag = LE_LAST)
    (hfirst : ∀ j, j < k → ∀ e2,
      (logexp_thread_trace tests batches)[j]? = some e2 →
      e2.cls ≠ Classification.MATCH) :
    e.cls ≠ Classification.MATCH := by
  unfold logexp_thread_trace at he hfirst
  have h1 : (logexp_next tests logexp_init).vxid_last = -1 := by
    simp [logexp_next, logexp_init]
  have h2 : (logexp_next tests logexp_init).tag_last = -1 := by
    simp [logexp_next, logexp_init]
  exact run_trace_no_prior_match tests batches
    (logexp_next tests logexp_init) k e t h1 h2 hwf he ht hlast hfirst

/-- claim C3 witness: the first record against a LAST-vxid Pattern with no
prior match gets classified, and the theorem shows that classification is
not a MATCH — concretely it is the FAIL event of the trace. -/
theorem claim_C3_witness :
    (logexp_thread_trace [sample_last_t] [[[sample_pos]]])[0]? =
      some ⟨0, Classification.FAIL⟩ ∧
    (⟨0, Classification.FAIL⟩ : LEEvent).cls ≠ Classification.MATCH := by
  refine ⟨by decide, ?_⟩
  exact claim_C3 [sample_last_t] [[[sample_pos]]] (by decide) 0
    ⟨0, Classification.FAIL⟩ sample_last_t (by decide) (by rfl)
    (Or.inl rfl) (fun j hj e2 _ => absurd hj (Nat.not_lt_zero j))

/-- claim C7: one expectation line accepts exactly 3 or 4 tokens (error
otherwise); the skip token maps `*` to ANY else a fully consumed
`(int)strtol` parse whose truncated value is non-negative; the vxid token
maps `*` to ANY, `=` to LAST, else likewise a non-negative `(int)strtol`
parse; the tag token maps `*` to ANY, `=` to LAST, else the tag registry
value when that is non-negative (unknown name is an error); a 4th token
must compile as a regex, compile failure carrying the engine message and
offset; a Pattern is produced exactly when everything parses, and on error
nothing is appended to the Pattern list. -/
theorem claim_C7 (name2tag : String → Int)
    (vrec : String → Except (String × Int) (List Char → Bool))
    (av : List String) (t : LogexpTest) :
    ((av[1]? = none ∨ av[2]? = none ∨ av[3]? = none) →
       ∃ msg, cmd_logexp_expect name2tag vrec av = .error msg) ∧
    ((av[4]?).isSome → (av[5]?).isSome →
       ∃ msg, cmd_logexp_expect name2tag vrec av = .error msg) ∧
    (cmd_logexp_expect name2tag vrec av = .ok t ↔
       ∃ a1 a2 a3, av[1]? = some a1 ∧ av[2]? = some a2 ∧ av[3]? = some a3 ∧
         av[5]? = none ∧
         parse_skip a1 = .ok t.skip_max ∧ parse_vxid a2 = .ok t.vxid ∧
         parse_tag name2tag a3 = .ok t.tag ∧
         ((av[4]? = none ∧ t.vre = none) ∨
          (∃ a4 m, av[4]? = some a4 ∧ vrec a4 = .ok m ∧ t.vre = some m))) ∧
    parse_skip "*" = .ok LE_ANY ∧
    (∀ s v, parse_skip s = .ok v →
       v = LE_ANY ∨
       (0 ≤ v ∧ (strtol10 s.data).2 = [] ∧
         v = int_cast (strtol10 s.data).1)) ∧
    parse_vxid "*" = .ok LE_ANY ∧
    parse_vxid "=" = .ok LE_LAST ∧
    (∀ s v, parse_vxid s = .ok v →
       v = LE_ANY ∨ v = LE_LAST ∨
       (0 ≤ v ∧ (strtol10 s.data).2 = [] ∧
         v = int_cast (strtol10 s.data).1)) ∧
    parse_tag name2tag "*" = .ok LE_ANY ∧
    parse_tag name2tag "=" = .ok LE_LAST ∧
    (∀ s, s ≠ "*" → s ≠ "=" →
       (0 ≤ name2tag s → parse_tag name2tag s = .ok (name2tag s)) ∧
       (name2tag s < 0 →
          parse_tag name2tag s = .error ("Unknown tag name: " ++ s))) ∧
    (∀ a1 a2 a3 a4 err pos, av[1]? = some a1 → av[2]? = some a2 →
       av[3]? = some a3 → av[4]? = some a4 → av[5]? = none →
       vrec a4 = .error (err, pos) →
       (∃ sm, parse_skip a1 = .ok sm) → (∃ vx, parse_vxid a2 = .ok vx) →
       (∃ tg, parse_tag name2tag a3 = .ok tg) →
       cmd_logexp_expect name2tag vrec av = .error (vre_err_msg err a4 pos)) ∧
    (∀ tests msg, cmd_logexp_expect name2tag vrec av = .error msg →
       cmd_logexp_expect_app name2tag vrec tests av = tests) := by
  obtain ⟨tv, tt, tvre, tsm⟩ := t
  refine ⟨?_, ?_, ?_, ?_, ?_, ?_, ?_, ?_, ?_, ?_, ?_, ?_, ?_⟩
  · intro h
    rcases h1 : av[1]? with _ | a1
    · exact ⟨"Syntax error", by simp [cmd_logexp_expect, h1]⟩
    · rcases h2 : av[2]? with _ | a2
      · exact ⟨"Syntax error", by simp [cmd_logexp_expect, h1, h2]⟩
      · rcases h3 : av[3]? with _ | a3
        · exact ⟨"Syntax error", by simp [cmd_logexp_expect, h1, h2, h3]⟩
        · simp [h1, h2, h3] at h
  · intro h4 h5
    have hl : 5 < av.length := by
      rcases h52 : av[5]? with _ | x
      · rw [h52] at h5; simp at h5
      · exact (List.getElem?_eq_some.mp h52).1
    have h1 : av[1]? = some av[1] := List.getElem?_eq_getElem (by omega)
    have h2 : av[2]? = some av[2] := List.getElem?_eq_getElem (by omega)
    have h3 : av[3]? = some av[3] := List.getElem?_eq_getElem (by omega)
    refine ⟨"Syntax error", ?_⟩
    simp [cmd_logexp_expect, h1, h2, h3, h4, h5]
  · rcases h1 : av[1]? with _ | a1
    · simp [cmd_logexp_expect, h1]
    · rcases h2 : av[2]? with _ | a2
      · simp [cmd_logexp_expect, h1, h2]
      · rcases h3 : av[3]? with _ | a3
        · simp [cmd_logexp_expect, h1, h2, h3]
        · by_cases h45 : (av[4]?).isSome ∧ (av[5]?).isSome
          · have hcmd : cmd_logexp_expect name2tag vrec av =
                .error "Syntax error" := by
              simp [cmd_logexp_expect, h1, h2, h3, h45]
            rw [hcmd]
            have h5 : av[5]? ≠ none := by
              intro hc
              rw [hc] at h45
              simp at h45
            constructor
            · intro hc; simp at hc
            · rintro ⟨b1, b2, b3, hb1, hb2, hb3, hb5, -⟩
              exact absurd hb5 h5
          · cases hps : parse_skip a1 with
            | error e =>
              have hcmd : cmd_logexp_expect name2tag vrec av = .error e := by
                simp [cmd_logexp_expect, h1, h2, h3, h45, hps]
              rw [hcmd]
              constructor
              · intro hc; simp at hc
              · rintro ⟨b1, b2, b3, hb1, hb2, hb3, -, hbs, -⟩
                injection hb1 with hb1
                subst hb1
                rw [hps] at hbs
                simp at hbs
            | ok sm =>
              cases hpv : parse_vxid a2 with
              | error e =>
                have hcmd : cmd_logexp_expect name2tag vrec av =
                    .error e := by
                  simp [cmd_logexp_expect, h1, h2, h3, h45, hps, hpv]
                rw [hcmd]
                constructor
                · intro hc; simp at hc
                · rintro ⟨b1, b2, b3, hb1, hb2, hb3, -, -, hbv, -⟩
                  injection hb2 with hb2
                  subst hb2
                  rw [hpv] at hbv
                  simp at hbv
              | ok vx =>
                cases hpt : parse_tag name2tag a3 with
                | error e =>
                  have hcmd : cmd_logexp_expect name2tag vrec av =
                      .error e := by
                    simp [cmd_logexp_expect, h1, h2, h3, h45, hps, hpv, hpt]
                  rw [hcmd]
                  constructor
                  · intro hc; simp at hc
                  · rintro ⟨b1, b2, b3, hb1, hb2, hb3, -, -, -, hbt, -⟩
                    injection hb3 with hb3
                    subst hb3
                    rw [hpt] at hbt
                    simp at hbt
                | ok tg =>
                  rcases h4 : av[4]? with _ | a4
                  · have h5 : av[5]? = none := by
                      rw [List.getElem?_eq_none_iff] at h4 ⊢
                      omega
                    have hcmd : cmd_logexp_expect name2tag vrec av =
                        .ok ⟨vx, tg, none, sm⟩ := by
                      simp [cmd_logexp_expect, h1, h2, h3, h5, hps, hpv,
                        hpt, h4]
                    rw [hcmd]
                    constructor
                    · intro hc
                      injection hc with hc
                      injection hc with hv htg hvre hsm
                      exact ⟨a1, a2, a3, rfl, rfl, rfl, h5,
                        by rw [hps, hsm], by rw [hpv, hv], by rw [hpt, htg],
                        Or.inl ⟨rfl, hvre.symm⟩⟩
                    · rintro ⟨b1, b2, b3, hb1, hb2, hb3, -, hbs, hbv, hbt,
                        hrest⟩
                      injection hb1 with hb1
                      subst hb1
                      injection hb2 with hb2
                      subst hb2
                      injection hb3 with hb3
                      subst hb3
                      rw [hps] at hbs
                      injection hbs with hbs
                      rw [hpv] at hbv
                      injection hbv with hbv
                      rw [hpt] at hbt
                      injection hbt with hbt
                      rcases hrest with ⟨-, hvre⟩ | ⟨a4, m, hc4, -⟩
                      · have hvre2 : tvre = none := hvre
                        rw [hbs, hbv, hbt, hvre2]
                      · simp at hc4
                  · have h5 : av[5]? = none := by
                      rcases h52 : av[5]? with _ | x
                      · rfl
                      · exfalso
                        exact h45 ⟨by simp [h4], by simp [h52]⟩
                    cases hvc : vrec a4 with
                    | error ep =>
                      rcases ep with ⟨err, pos⟩
                      have hcmd : cmd_logexp_expect name2tag vrec av =
                          .error (vre_err_msg err a4 pos) := by
                        simp [cmd_logexp_expect, h1, h2, h3, h5, hps, hpv,
                          hpt, h4, hvc]
                      rw [hcmd]
                      constructor
                      · intro hc; simp at hc
                      · rintro ⟨b1, b2, b3, hb1, hb2, hb3, -, -, -, -,
                          hrest⟩
                        rcases hrest with ⟨hc4, -⟩ | ⟨a42, m, hc4, hcm, -⟩
                        · simp at hc4
                        · injection hc4 with hc4
                          subst hc4
                          rw [hvc] at hcm
                          simp at hcm
                    | ok m =>
                      have hcmd : cmd_logexp_expect name2tag vrec av =
                          .ok ⟨vx, tg, some m, sm⟩ := by
                        simp [cmd_logexp_expect, h1, h2, h3, h5, hps, hpv,
                          hpt, h4, hvc]
                      rw [hcmd]
                      constructor
                      · intro hc
                        injection hc with hc
                        injection hc with hv htg hvre hsm
                        exact ⟨a1, a2, a3, rfl, rfl, rfl, h5,
                          by rw [hps, hsm], by rw [hpv, hv],
                          by rw [hpt, htg],
                          Or.inr ⟨a4, m, rfl, hvc, hvre.symm⟩⟩
                      · rintro ⟨b1, b2, b3, hb1, hb2, hb3, -, hbs, hbv, hbt,
                          hrest⟩
                        injection hb1 with hb1
                        subst hb1
                        injection hb2 with hb2
                        subst hb2
                        injection hb3 with hb3
                        subst hb3
                        rw [hps] at hbs
                        injection hbs with hbs
                        rw [hpv] at hbv
                        injection hbv with hbv
                        rw [hpt] at hbt
                        injection hbt with hbt
                        rcases hrest with ⟨hc4, -⟩ | ⟨a42, m2, hc4, hcm,
                          hvre⟩
                        · simp at hc4
                        · injection hc4 with hc4
                          subst hc4
                          rw [hvc] at hcm
                          injection hcm with hcm
                          subst hcm
                          have hvre2 : tvre = some m := hvre
                          rw [hbs, hbv, hbt, hvre2]
  · simp [parse_skip]
  · intro s v hp
    by_cases hst : s = "*"
    · subst hst
      simp [parse_skip] at hp
      exact Or.inl hp.symm
    · rcases hstr : strtol10 s.data with ⟨v0, rest⟩
      simp only [parse_skip, if_neg hst, hstr] at hp
      split_ifs at hp with hcond
      push_neg at hcond
      injection hp with hp
      subst hp
      exact Or.inr ⟨hcond.2, hcond.1, rfl⟩
  · simp [parse_vxid]
  · simp [parse_vxid]
  · intro s v hp
    by_cases hst : s = "*"
    · subst hst
      simp [parse_vxid] at hp
      exact Or.inl hp.symm
    · by_cases hse : s = "="
      · subst hse
        simp [parse_vxid] at hp
        exact Or.inr (Or.inl hp.symm)
      · rcases hstr : strtol10 s.data with ⟨v0, rest⟩
        simp only [parse_vxid, if_neg hst, if_neg hse, hstr] at hp
        split_ifs at hp with hcond
        push_neg at hcond
        injection hp with hp
        subst hp
        exact Or.inr (Or.inr ⟨hcond.2, hcond.1, rfl⟩)
  · simp [parse_tag]
  · simp [parse_tag]
  · intro s hs1 hs2
    constructor
    · intro h0
      rw [parse_tag, if_neg hs1, if_neg hs2, if_neg (by omega)]
    · intro hneg
      rw [parse_tag, if_neg hs1, if_neg hs2, if_pos hneg]
  · rintro a1 a2 a3 a4 err pos h1 h2 h3 h4 h5 hvc ⟨sm, hps⟩ ⟨vx, hpv⟩
      ⟨tg, hpt⟩
    simp [cmd_logexp_expect, h1, h2, h3, h5, hps, hpv, hpt, h4, hvc]
  · intro tests msg herr
    simp [cmd_logexp_expect_app, herr]

/-- claim C7 witness: the skip and vxid token wildcards map to their
sentinels, a plain integer skip token parses by a full `strtol` consume and
the `(int)` cast, a token overflowing `int` is rejected as negative while a
multiple of 2^32 truncates to 0, and a two-token expect line leaves the
Pattern list untouched. -/
theorem claim_C7_witness :
    parse_skip "*" = .ok LE_ANY ∧
    parse_vxid "=" = .ok LE_LAST ∧
    ((7 : Int) = LE_ANY ∨
      (0 ≤ (7 : Int) ∧ (strtol10 "7".data).2 = [] ∧
        (7 : Int) = int_cast (strtol10 "7".data).1)) ∧
    parse_skip "2147483648" = .error "Not a positive integer: 2147483648" ∧
    parse_skip "4294967296" = .ok 0 ∧
    cmd_logexp_expect_app (fun _ => (0 : Int))
      (fun _ => .ok (fun _ => true)) [] ["expect", "2"] = [] := by
  have h := claim_C7 (fun _ => (0 : Int)) (fun _ => .ok (fun _ => true))
    ["expect", "2"] { vxid := 0, tag := 0, vre := none, skip_max := 0 }
  obtain ⟨msg, hmsg⟩ := h.1 (Or.inr (Or.inl (by rfl)))
  refine ⟨h.2.2.2.1, h.2.2.2.2.2.2.1, ?_, by rfl, by rfl, ?_⟩
  · exact h.2.2.2.2.1 "7" 7 (by rfl)
  · exact h.2.2.2.2.2.2.2.2.2.2.2.2 [] msg hmsg

/-- Every Engine mutation performed by an argument handler carries the `run`
flag the handler saw. -/
theorem cmd_arg_apply_applied (env : CmdEnv) (st : LogexpCfg) (a : String)
    (n : Option String) :
    ∀ x b, CmdEv.applied x b ∈ (cmd_arg_apply env st a n).2.1 →
      b = st.run := by
  intro x b hmem
  unfold cmd_arg_apply at hmem
  repeat' split at hmem
  all_goals (try simp_all)
  all_goals
    (rw [apply_ite (fun p : LogexpCfg × List CmdEv × Bool × Bool => p.2.1)]
       at hmem
     split at hmem <;> simp_all)

/-- One-step unfolding of the `cmd_logexpect` argument loop on a non-empty
argument list. -/
theorem cmd_logexpect_args_cons (env : CmdEnv) (st : LogexpCfg) (a : String)
    (rest : List String) :
    cmd_logexpect_args env st (a :: rest) =
      (if a = "-wait" then
        if st.run = false then (st, [.fatalEv "logexp not -started"])
        else if env.threadFailed then
          (st, [.waited, .fatalEv "logexp returned"])
        else
          match cmd_logexpect_args env { st with run := false } rest with
          | (st3, evs3) => (st3, .waited :: evs3)
      else if st.run = true ∧ env.threadFailed = true then
        (st, [.waited, .fatalEv "logexp returned"])
      else
        match cmd_arg_apply env
            (if st.run then { st with run := false } else st) a
            rest.head? with
        | (st2, evs2, halt, two) =>
          if halt then
            (st2, (if st.run then [CmdEv.waited] else []) ++ evs2)
          else if two then
            match rest with
            | [] => (st2, (if st.run then [CmdEv.waited] else []) ++ evs2)
            | _ :: rest2 =>
              match cmd_logexpect_args env st2 rest2 with
              | (st3, evs3) =>
                (st3, (if st.run then [CmdEv.waited] else []) ++ evs2 ++
                  evs3)
          else
            match cmd_logexpect_args env st2 rest with
            | (st3, evs3) =>
              (st3, (if st.run then [CmdEv.waited] else []) ++ evs2 ++
                evs3)) := by
  cases rest <;> rfl

/-- Nil unfolding of the `cmd_logexpect` argument loop. -/
theorem cmd_logexpect_args_nil (env : CmdEnv) (st : LogexpCfg) :
    cmd_logexpect_args env st [] = (st, []) := rfl

/-- The argument-loop trace of `cmd_logexpect`: every mutation event carries
`run = false`. -/
theorem cmd_logexpect_args_applied (env : CmdEnv) :
    ∀ (args : List String) (st : LogexpCfg) (x : String) (b : Bool),
      CmdEv.applied x b ∈ (cmd_logexpect_args env st args).2 → b = false := by
  have main : ∀ (n : Nat) (args : List String), args.length ≤ n →
      ∀ (st : LogexpCfg) (x : String) (b : Bool),
        CmdEv.applied x b ∈ (cmd_logexpect_args env st args).2 →
        b = false := by
    intro n
    induction n with
    | zero =>
      intro args hlen st x b hmem
      have hargs : args = [] := List.length_eq_zero.mp (by omega)
      subst hargs
      rw [cmd_logexpect_args_nil] at hmem
      exact absurd hmem (List.not_mem_nil _)
    | succ n ihn =>
      intro args hlen st x b hmem
      cases args with
      | nil =>
        rw [cmd_logexpect_args_nil] at hmem
        exact absurd hmem (List.not_mem_nil _)
      | cons a rest =>
        have hrest : rest.length ≤ n := by
          simp only [List.length_cons] at hlen
          omega
        rw [cmd_logexpect_args_cons] at hmem
        by_cases hw : a = "-wait"
        · rw [if_pos hw] at hmem
          by_cases hr : st.run = false
          · rw [if_pos hr] at hmem
            simp at hmem
          · rw [if_neg hr] at hmem
            by_cases htf : env.threadFailed
            · rw [if_pos htf] at hmem
              simp at hmem
            · rw [if_neg htf] at hmem
              rcases hrec : cmd_logexpect_args env { st with run := false }
                  rest with ⟨st3, evs3⟩
              rw [hrec] at hmem
              simp only [List.mem_cons] at hmem
              rcases hmem with hmem | hmem
              · simp at hmem
              · exact ihn rest hrest { st with run := false } x b
                  (by rw [hrec]; exact hmem)
        · rw [if_neg hw] at hmem
          by_cases hrf : st.run = true ∧ env.threadFailed = true
          · rw [if_pos hrf] at hmem
            simp at hmem
          · rw [if_neg hrf] at hmem
            have hst1 : (if st.run then { st with run := false } else st).run
                = false := by
              by_cases hsr : st.run = true
              · simp [hsr]
              · simp only [Bool.not_eq_true] at hsr
                simp [hsr]
            rcases happ : cmd_arg_apply env
                (if st.run then { st with run := false } else st) a
                rest.head? with ⟨st2, evs2, halt, two⟩
            have hev2 : ∀ x2 b2, CmdEv.applied x2 b2 ∈ evs2 →
                b2 = false := by
              intro x2 b2 hm2
              have := cmd_arg_apply_applied env
                (if st.run then { st with run := false } else st) a
                rest.head? x2 b2 (by rw [happ]; exact hm2)
              rw [this, hst1]
            have hev1 : ∀ b2,
                CmdEv.applied x b2 ∈ (if st.run then [CmdEv.waited] else
                  ([] : List CmdEv)) → b2 = false := by
              intro b2 hm1
              by_cases hsr : st.run <;> simp [hsr] at hm1
            rw [happ] at hmem
            dsimp only at hmem
            by_cases hhalt : halt = true
            · rw [if_pos hhalt] at hmem
              rw [List.mem_append] at hmem
              rcases hmem with hmem | hmem
              · exact hev1 b hmem
              · exact hev2 x b hmem
            · rw [if_neg hhalt] at hmem
              by_cases htwo : two = true
              · rw [if_pos htwo] at hmem
                cases rest with
                | nil =>
                  rw [List.mem_append] at hmem
                  rcases hmem with hmem | hmem
                  · exact hev1 b hmem
                  · exact hev2 x b hmem
                | cons r2 rest2 =>
                  dsimp only at hmem
                  have hrest2 : rest2.length ≤ n := by
                    simp only [List.length_cons] at hrest
                    omega
                  rcases hrec : cmd_logexpect_args env st2 rest2
                    with ⟨st3, evs3⟩
                  rw [hrec] at hmem
                  simp only [List.mem_append] at hmem
                  rcases hmem with (hmem | hmem) | hmem
                  · exact hev1 b hmem
                  · exact hev2 x b hmem
                  · exact ihn rest2 hrest2 st2 x b (by rw [hrec]; exact hmem)
              · rw [if_neg htwo] at hmem
                rcases hrec : cmd_logexpect_args env st2 rest with ⟨st3, evs3⟩
                rw [hrec] at hmem
                simp only [List.mem_append] at hmem
                rcases hmem with (hmem | hmem) | hmem
                · exact hev1 b hmem
                · exact hev2 x b hmem
                · exact ihn rest hrest st2 x b (by rw [hrec]; exact hmem)
  intro args st x b hmem
  exact main args.length args le_rfl st x b hmem

/-- claim C8: in the `cmd_logexpect` argument loop, every Engine mutation is
applied in the not-running state (the implicit wait precedes it), and when
processing starts with the Engine running the very first event is the
`pthread_join` of `logexp_wait`. -/
theorem claim_C8 (env : CmdEnv) (st : LogexpCfg) (args : List String) :
    (∀ x b, CmdEv.applied x b ∈ (cmd_logexpect_args env st args).2 →
       b = false) ∧
    (st.run = true → args ≠ [] →
       (cmd_logexpect_args env st args).2.head? = some CmdEv.waited) := by
  constructor
  · intro x b hmem
    exact cmd_logexpect_args_applied env args st x b hmem
  · intro hr hne
    cases args with
    | nil => simp at hne
    | cons a rest =>
      rw [cmd_logexpect_args_cons]
      by_cases hw : a = "-wait"
      · by_cases htf : env.threadFailed
        · simp [hw, hr, htf]
        · rcases hrec : cmd_logexpect_args env { st with run := false } rest
            with ⟨st3, evs3⟩
          simp [hw, hr, htf, hrec]
      · by_cases htf : env.threadFailed
        · simp [hw, hr, htf]
        · rcases happ : cmd_arg_apply env { st with run := false } a
            rest.head? with ⟨st2, evs2, halt, two⟩
          by_cases hhalt : halt = true
          · simp [hw, hr, htf, happ, hhalt]
          · by_cases htwo : two = true
            · cases rest with
              | nil =>
                simp only [List.head?_nil] at happ
                simp [hw, hr, htf, happ, hhalt, htwo]
              | cons r2 rest2 =>
                simp only [List.head?_cons] at happ
                rcases hrec : cmd_logexpect_args env st2 rest2
                  with ⟨st3, evs3⟩
                simp [hw, hr, htf, happ, hhalt, htwo, hrec]
            · rcases hrec : cmd_logexpect_args env st2 rest with ⟨st3, evs3⟩
              simp [hw, hr, htf, happ, hhalt, htwo, hrec]

/-- claim C8 witness: on a running Engine a `-d` mutation first joins the
thread — the first event is the wait and the mutation is applied
not-running. -/
theorem claim_C8_witness :
    (cmd_logexpect_args sample_env sample_cfg ["-d", "1"]).2.head? =
      some CmdEv.waited ∧
    false = false := by
  have h := claim_C8 sample_env sample_cfg ["-d", "1"]
  exact ⟨h.2 (by rfl) (by simp), h.1 "-d" false (by decide)⟩

end VtcLogexp
